import Mathlib

/-!
Verification of the `black` repository excerpt (src/blackd.py and its test
suite) against its specification.  Byte strings are `List Nat` (byte values),
Python strings are `List Nat` (Unicode code points).  Parts of the repository
that are exercised by the tests but whose source module is not part of this
excerpt (the formatting engine, cache, report and CLI of `black.py`) are
modelled from the specification; their doc comments say so explicitly.
-/

/-! ## UTF-8 codec

`blackd.new_req` calls `req_bytes.decode("utf8")` and `str.encode("utf8")`;
we embed the strict UTF-8 codec those calls use. -/

/-- UTF-8 encoding of a single Unicode code point (the runtime codec behind
`str.encode("utf8")` in `blackd.new_req`). -/
def utf8EncodeChar (c : Nat) : List Nat :=
  if c < 128 then [c]
  else if c < 2048 then [192 + c / 64, 128 + c % 64]
  else if c < 65536 then [224 + c / 4096, 128 + c / 64 % 64, 128 + c % 64]
  else [240 + c / 262144, 128 + c / 4096 % 64, 128 + c / 64 % 64, 128 + c % 64]

/-- UTF-8 encoding of a code-point sequence. -/
def utf8Encode (s : List Nat) : List Nat := (s.map utf8EncodeChar).flatten

/-- Is `b` a UTF-8 continuation byte (`10xxxxxx`)? -/
def isCont (b : Nat) : Bool := 128 ≤ b && b < 192

/-- Strict UTF-8 decoder (the runtime codec behind `bytes.decode("utf8")` in
`blackd.new_req`): rejects stray continuation bytes, overlong encodings,
surrogate code points and out-of-range sequences, as Python's strict
`utf8` codec does. `none` models a raised `UnicodeDecodeError`. -/
def utf8Decode : List Nat → Option (List Nat)
  | [] => some []
  | b :: bs =>
    if b < 128 then
      (utf8Decode bs).map (fun r => b :: r)
    else if b < 194 then none
    else if b < 224 then
      match bs with
      | b1 :: rest =>
        if isCont b1 then
          (utf8Decode rest).map (fun r => ((b - 192) * 64 + (b1 - 128)) :: r)
        else none
      | [] => none
    else if b < 240 then
      match bs with
      | b1 :: b2 :: rest =>
        if isCont b1 && isCont b2 then
          let c := (b - 224) * 4096 + (b1 - 128) * 64 + (b2 - 128)
          if 2048 ≤ c && !(55296 ≤ c && c < 57344) then
            (utf8Decode rest).map (fun r => c :: r)
          else none
        else none
      | _ => none
    else if b < 245 then
      match bs with
      | b1 :: b2 :: b3 :: rest =>
        if isCont b1 && isCont b2 && isCont b3 then
          let c := (b - 240) * 262144 + (b1 - 128) * 4096 + (b2 - 128) * 64
            + (b3 - 128)
          if 65536 ≤ c && c < 1114112 then
            (utf8Decode rest).map (fun r => c :: r)
          else none
        else none
      | _ => none
    else none

/-! ## The daemon request handler (src/blackd.py, `new_req`) -/

/-- A Python exception escaping the `try` body of `new_req`: either
`black.NothingChanged` (caught by the first `except`) or any other
exception carrying a message (`str(e)`, a code-point sequence), caught by
the generic `except Exception`. -/
inductive Exc where
  | nothingChanged : Exc
  | exc (msg : List Nat) : Exc
deriving DecidableEq

/-- The observable effect of `new_req` on one connection: the byte strings
passed to `writer.write`, and whether the `finally` block drained and
closed the writer. -/
structure ConnResult where
  writes : List (List Nat)
  drained : Bool
  closed : Bool
deriving DecidableEq

/-- `b"OK\n"` as bytes. -/
def okHdr : List Nat := [79, 75, 10]

/-- `b"OK NO CHANGE\n"` as bytes. -/
def okNoChangeMsg : List Nat := [79, 75, 32, 78, 79, 32, 67, 72, 65, 78, 71, 69, 10]

/-- `b"ERROR\n"` as bytes. -/
def errHdr : List Nat := [69, 82, 82, 79, 82, 10]

/-- The single `writer.write` argument chosen by `new_req`'s
`try`/`except` ladder from the outcome of the `try` body. -/
def responseFor (tryResult : Except Exc (List Nat)) : List Nat :=
  match tryResult with
  | Except.ok formatted => okHdr ++ formatted
  | Except.error Exc.nothingChanged => okNoChangeMsg
  | Except.error (Exc.exc m) => errHdr ++ utf8Encode m

/-- Embedding of `blackd.new_req` (src/blackd.py lines 89-114).
`fmt` stands for `black.format_file_contents` applied at the startup
configuration `(line_length, fast, mode)`: it maps the decoded request text
to either the formatted text or a raised exception.  `de` gives the
`str(e)` message of the `UnicodeDecodeError` raised when the body is not
valid UTF-8 (its wording is produced by the runtime, not this repository).
The `try` body reads the request, decodes it and formats it; the response
is `OK\n` + formatted bytes, or `OK NO CHANGE\n` on `NothingChanged`, or
`ERROR\n` + the message on any other exception; the `finally` block drains
and closes the writer on every path. -/
def new_req (fmt : List Nat → Except Exc (List Nat)) (de : List Nat → List Nat)
    (req_bytes : List Nat) : ConnResult :=
  let tryResult : Except Exc (List Nat) :=
    match utf8Decode req_bytes with
    | none => Except.error (Exc.exc (de req_bytes))
    | some req_str =>
      match fmt req_str with
      | Except.ok formatted => Except.ok (utf8Encode formatted)
      | Except.error e => Except.error e
  { writes := [responseFor tryResult], drained := true, closed := true }

/-- The daemon serving a sequence of independent connections: each request
body is handled by `new_req` under the fixed startup configuration. -/
def handleConnections (fmt : List Nat → Except Exc (List Nat))
    (de : List Nat → List Nat) (reqs : List (List Nat)) : List ConnResult :=
  reqs.map (new_req fmt de)

/-! ## The daemon entry point (src/blackd.py, `main`) -/

/-- Python exceptions relevant to `blackd.main`'s startup and loop. -/
inductive PyErr where
  | nameError : PyErr
  | osError : PyErr
  | keyboardInterrupt : PyErr
deriving DecidableEq

/-- How an invocation of `blackd.main` ends. -/
inductive MainOutcome where
  | cleanExit : MainOutcome
  | raised (e : PyErr) : MainOutcome
deriving DecidableEq

/-- Embedding of `blackd.main`'s `try`/`finally` (src/blackd.py lines
75-86).  `startResult` is the outcome of
`loop.run_until_complete(asyncio.start_server(...))`; the local `server`
is bound only if it succeeds.  `loop.run_forever()` has no registered
stop condition in this module, so it returns only when an exception
`interrupt` (e.g. `KeyboardInterrupt`) breaks it.  The `finally` block
evaluates `server.close()` unconditionally; if `server` was never bound,
that lookup itself raises an unbound-local `NameError`, which replaces
the original exception. -/
def blackdMain (startResult : Except PyErr Unit) (interrupt : PyErr) : MainOutcome :=
  let server : Option Unit :=
    match startResult with
    | Except.ok _ => some ()
    | Except.error _ => none
  let body : Except PyErr Unit :=
    match startResult with
    | Except.error e => Except.error e
    | Except.ok _ => Except.error interrupt
  match server with
  | none => MainOutcome.raised PyErr.nameError
  | some _ =>
    match body with
    | Except.error e => MainOutcome.raised e
    | Except.ok _ => MainOutcome.cleanExit

/-- The names bound at top level of the `blackd` module, transcribed from
src/blackd.py: the five imported names and the two function definitions.
These are the attributes available as `blackd.<name>` to other modules
such as the test suite. -/
def blackdModuleAttrs : List String :=
  ["asyncio", "partial", "Optional", "black", "click", "main", "new_req"]

/-! ## The Formatting Engine and Stability Oracle (modelled from the spec)

`black.py` (the formatting engine and oracles exercised by the tests) is
not part of this excerpt, so `render` and `assert_stable` are modelled
from the specification, at the granularity the idempotence law is stated:
the engine canonicalises layout (whitespace between tokens and line
breaks) under a maximum line width, it tries one physical line per group
and falls back to one element per line when over budget, every emitted
line is terminated, and empty or whitespace-only input renders to an
empty result. -/

/-- Is `c` layout whitespace (space or newline)? -/
def isSpace (c : Char) : Bool := c == ' ' || c == '\n'

/-- Split source text into its maximal whitespace-free tokens, dropping
the original layout. -/
def tokenize (s : List Char) : List (List Char) :=
  match s with
  | [] => []
  | c :: cs =>
    if isSpace c then tokenize cs
    else
      (c :: cs.takeWhile (fun d => !isSpace d))
        :: tokenize (cs.dropWhile (fun d => !isSpace d))
termination_by s.length
decreasing_by
  · simp only [List.length_cons]; omega
  · simp only [List.length_cons]
    exact Nat.lt_succ_of_le (List.dropWhile_sublist _).length_le

/-- Join tokens with a single separator character between them. -/
def joinSep (sep : Char) : List (List Char) → List Char
  | [] => []
  | [t] => t
  | t :: ts => t ++ sep :: joinSep sep ts

/-- Modelled from the spec: the layout decision of the Formatting Engine
(§4.1) on one token group — attempt a single physical line; if it would
exceed the width budget, fall back to one element per line; always
terminate the final line.  The full splitting-strategy ladder of
`black.py` is not part of this excerpt. -/
def renderToks (w : Nat) (ts : List (List Char)) : List Char :=
  match ts with
  | [] => []
  | _ :: _ =>
    let line := joinSep ' ' ts
    if line.length ≤ w then line ++ ['\n'] else joinSep '\n' ts ++ ['\n']

/-- Modelled from the spec: `render(s, c) -> text`, the Formatting Engine
contract of §4.1 with configuration `c` the maximum line width
(`black.py`'s engine is not part of this excerpt).  Empty and
whitespace-only input render to the empty result. -/
def render (w : Nat) (s : List Char) : List Char := renderToks w (tokenize s)

/-- Modelled from the spec: the Stability Oracle `assert_stable(original,
formatted, config)` of §4.3 (`black.assert_stable` is not part of this
excerpt) — it fails exactly when re-rendering `formatted` under the same
configuration does not reproduce it byte for byte. -/
def assert_stable (_src dst : List Char) (w : Nat) : Bool :=
  render w dst == dst

/-! ## The Cache (modelled from the spec)

`black.py`'s cache (`read_cache`, `write_cache`, `filter_cached`,
`get_cache_info`) is not part of this excerpt; it is modelled from §4.4
and §6 of the specification: one record store per Configuration
Fingerprint, each store mapping file identity to a (modification time,
size) snapshot. -/

/-- A recorded (modification time, size) snapshot of a file. -/
abbrev FileInfo := Nat × Nat

/-- One fingerprint's record store: file identity to snapshot. -/
abbrev CacheMap := List (String × FileInfo)

/-- Modelled from the spec: the Configuration Fingerprint (§3) — the
settings tuple that must match for a cache entry to apply.  `black.py`'s
cache keys are not part of this excerpt; the tests exercise the line
length and the file mode. -/
structure Fingerprint where
  line_length : Nat
  mode : Nat
deriving DecidableEq

/-- The persisted cache root: record stores addressed by fingerprint. -/
abbrev CacheStore := List (Fingerprint × CacheMap)

/-- Look a file identity up in one fingerprint's record store. -/
def cacheLookup : CacheMap → String → Option FileInfo
  | [], _ => none
  | (q, info) :: rest, p => if q = p then some info else cacheLookup rest p

/-- Modelled from the spec: `read(fingerprint)` (§4.4) — the record store
for a fingerprint, empty when absent (`black.read_cache` is not part of
this excerpt). -/
def read_cache : CacheStore → Fingerprint → CacheMap
  | [], _ => []
  | (g, m) :: rest, fp => if g = fp then m else read_cache rest fp

/-- Modelled from the spec: `write(fingerprint, files)` (§4.4) — merge new
snapshots for the given files into the existing record store for that
fingerprint, the new entries taking precedence (`black.write_cache` is
not part of this excerpt). -/
def write_cache (store : CacheStore) (fp : Fingerprint) (entries : CacheMap) :
    CacheStore :=
  (fp, entries ++ read_cache store fp) :: store

/-- Modelled from the spec: `filter(fingerprint, candidates) ->
(to_process, already_done)` (§4.4); `fs` gives each file's current
(mtime, size), standing for `black.get_cache_info` (not part of this
excerpt).  A file is already done exactly when its record under this
fingerprint equals its current snapshot. -/
def filter_cached (cache : CacheMap) (fs : String → FileInfo)
    (sources : List String) : List String × List String :=
  (sources.filter (fun src => !(decide (cacheLookup cache src = some (fs src)))),
   sources.filter (fun src => decide (cacheLookup cache src = some (fs src))))

/-! ## The Batch Driver's cache update (modelled from the spec) -/

/-- The write-back mode of a batch invocation. -/
inductive WriteBack where
  | no : WriteBack
  | yes : WriteBack
  | diff : WriteBack
deriving DecidableEq

/-- Where one formatting job's input came from: a named file or the
standard-input stream. -/
inductive Src where
  | file (path : String) : Src
  | stdin : Src
deriving DecidableEq

/-- The per-file outcome of one formatting job. -/
inductive Outcome where
  | changed : Outcome
  | unchanged : Outcome
  | failed : Outcome
deriving DecidableEq

/-- The path a job contributes to the cache write: only a file (never the
standard-input stream) whose format attempt succeeded — reformatted or
confirmed already formatted. -/
def jobSuccessPath : Src × Outcome → Option String
  | (Src.file p, Outcome.changed) => some p
  | (Src.file p, Outcome.unchanged) => some p
  | _ => none

/-- Modelled from the spec: the Batch Driver's cache step (§4.5, §4.4) —
after all jobs finish, the snapshots of the successfully formatted files
are written under the run's fingerprint, except that a diff-preview run
writes no cache record at all (`black.main`'s driver is not part of this
excerpt). -/
def runBatchCache (store : CacheStore) (fp : Fingerprint)
    (fs : String → FileInfo) (wb : WriteBack) (jobs : List (Src × Outcome)) :
    CacheStore :=
  if wb = WriteBack.diff then store
  else
    write_cache store fp
      ((jobs.filterMap jobSuccessPath).map (fun p => (p, fs p)))

/-! ## The Run Report and exit status (modelled from the spec and tests) -/

/-- Modelled from the spec: the Run Report (§3, §4.5), the per-file
outcome accumulator of one batch invocation (`black.Report` is not part
of this excerpt; its behaviour is fixed by `test_report_normal`). -/
structure Report where
  check : Bool := false
  change_count : Nat := 0
  same_count : Nat := 0
  failure_count : Nat := 0
deriving DecidableEq

/-- Did `reformat_one` change the file? `cached` marks a cache skip,
counted as unchanged. -/
inductive Changed where
  | no : Changed
  | cached : Changed
  | yes : Changed
deriving DecidableEq

/-- Record one finished file in the report: a changed file counts as
reformatted, an unchanged or cache-skipped file as left unchanged. -/
def Report.done (r : Report) (c : Changed) : Report :=
  match c with
  | Changed.yes => { r with change_count := r.change_count + 1 }
  | _ => { r with same_count := r.same_count + 1 }

/-- Record one failed file in the report. -/
def Report.failed (r : Report) : Report :=
  { r with failure_count := r.failure_count + 1 }

/-- Modelled from the spec and `test_report_normal`: the exit status a
finished report dictates — `123` when any file failed, else `1` in check
mode when any file would change, else `0`. -/
def Report.return_code (r : Report) : Nat :=
  if r.failure_count > 0 then 123
  else if r.check && decide (r.change_count > 0) then 1
  else 0

/-- How a batch invocation ended: rejected before processing because an
include/exclude pattern did not compile, or completed with a report. -/
inductive Invocation where
  | invalidPatterns : Invocation
  | completed (r : Report) : Invocation
deriving DecidableEq

/-- Modelled from the spec: the batch invocation's exit status (§6) —
`2` for invalid argument combinations such as a malformed
include/exclude pattern, otherwise the report's return code
(`black.main` is not part of this excerpt). -/
def exit_code : Invocation → Nat
  | Invocation.invalidPatterns => 2
  | Invocation.completed r => r.return_code

/-! ## Lemmas about tokenisation and rendering -/

/-- Unfolding equation of `tokenize` on the empty list. -/
theorem tokenize_nil : tokenize [] = [] := by rw [tokenize.eq_def]

/-- Unfolding equation of `tokenize` on a cons cell. -/
theorem tokenize_cons (c : Char) (cs : List Char) :
    tokenize (c :: cs) =
      if isSpace c then tokenize cs
      else (c :: cs.takeWhile (fun d => !isSpace d))
        :: tokenize (cs.dropWhile (fun d => !isSpace d)) := by
  rw [tokenize.eq_def]

/-- Every element of `l.takeWhile p` satisfies `p`. -/
theorem mem_takeWhile_pred {p : Char → Bool} :
    ∀ (l : List Char) {c : Char}, c ∈ l.takeWhile p → p c = true := by
  intro l
  induction l with
  | nil => intro c h; simp at h
  | cons a l ih =>
    intro c h
    rw [List.takeWhile_cons] at h
    by_cases ha : p a = true
    · rw [if_pos ha] at h
      rcases List.mem_cons.mp h with rfl | h
      · exact ha
      · exact ih h
    · rw [if_neg ha] at h
      simp at h

/-- `takeWhile` passes over a block that satisfies the predicate. -/
theorem takeWhile_append_all {p : Char → Bool} :
    ∀ (t r : List Char), (∀ c ∈ t, p c = true) →
      (t ++ r).takeWhile p = t ++ r.takeWhile p := by
  intro t
  induction t with
  | nil => intro r _; rfl
  | cons a t ih =>
    intro r h
    have ha : p a = true := h a (List.mem_cons_self a t)
    simp only [List.cons_append, List.takeWhile_cons, ha, if_true]
    rw [ih r (fun c hc => h c (List.mem_cons_of_mem a hc))]

/-- `dropWhile` consumes a block that satisfies the predicate. -/
theorem dropWhile_append_all {p : Char → Bool} :
    ∀ (t r : List Char), (∀ c ∈ t, p c = true) →
      (t ++ r).dropWhile p = r.dropWhile p := by
  intro t
  induction t with
  | nil => intro r _; rfl
  | cons a t ih =>
    intro r h
    have ha : p a = true := h a (List.mem_cons_self a t)
    simp only [List.cons_append, List.dropWhile_cons, ha, if_true]
    exact ih r (fun c hc => h c (List.mem_cons_of_mem a hc))

/-- Every token produced by `tokenize` is nonempty and whitespace-free. -/
theorem tokenize_wf_aux :
    ∀ (n : Nat) (s : List Char), s.length ≤ n →
      ∀ t ∈ tokenize s, t ≠ [] ∧ ∀ c ∈ t, isSpace c = false := by
  intro n
  induction n with
  | zero =>
    intro s hs
    have hnil : s = [] := List.length_eq_zero.mp (Nat.le_zero.mp hs)
    subst hnil
    simp [tokenize_nil]
  | succ n ih =>
    intro s hs t ht
    cases s with
    | nil => simp [tokenize_nil] at ht
    | cons c cs =>
      have hcs : cs.length ≤ n := by
        simp only [List.length_cons] at hs; omega
      rw [tokenize_cons] at ht
      by_cases hc : isSpace c = true
      · rw [if_pos hc] at ht
        exact ih cs hcs t ht
      · rw [if_neg hc] at ht
        rcases List.mem_cons.mp ht with rfl | ht
        · refine ⟨by simp, ?_⟩
          intro d hd
          rcases List.mem_cons.mp hd with rfl | hd
          · simpa using hc
          · have := mem_takeWhile_pred cs hd
            simpa using this
        · have hdrop : (cs.dropWhile (fun d => !isSpace d)).length ≤ n :=
            le_trans (List.dropWhile_sublist _).length_le hcs
          exact ih _ hdrop t ht

/-- Every token produced by `tokenize` is nonempty and whitespace-free. -/
theorem tokenize_wf (s : List Char) :
    ∀ t ∈ tokenize s, t ≠ [] ∧ ∀ c ∈ t, isSpace c = false :=
  tokenize_wf_aux s.length s le_rfl

/-- Tokenising a whitespace-free token followed by layout recovers the
token. -/
theorem tokenize_token_append (t r : List Char) (ht : t ≠ [])
    (hall : ∀ c ∈ t, isSpace c = false)
    (hr : r = [] ∨ ∃ d r', r = d :: r' ∧ isSpace d = true) :
    tokenize (t ++ r) = t :: tokenize r := by
  obtain ⟨c, t', rfl⟩ : ∃ c t', t = c :: t' := by
    cases t with
    | nil => exact absurd rfl ht
    | cons c t' => exact ⟨c, t', rfl⟩
  have hc : isSpace c = false := hall c (List.mem_cons_self _ _)
  have ht' : ∀ d ∈ t', (fun d => !isSpace d) d = true := by
    intro d hd
    simp [hall d (List.mem_cons_of_mem _ hd)]
  have hrt : r.takeWhile (fun d => !isSpace d) = [] := by
    rcases hr with rfl | ⟨d, r', rfl, hd⟩
    · rfl
    · simp [List.takeWhile_cons, hd]
  have hrd : r.dropWhile (fun d => !isSpace d) = r := by
    rcases hr with rfl | ⟨d, r', rfl, hd⟩
    · rfl
    · simp [List.dropWhile_cons, hd]
  rw [List.cons_append, tokenize_cons, if_neg (by simp [hc]),
    takeWhile_append_all t' r ht', dropWhile_append_all t' r ht', hrt, hrd,
    List.append_nil]

/-- Tokenising whitespace-free tokens joined by a whitespace separator and
terminated by a newline recovers the tokens. -/
theorem tokenize_joinSep (sep : Char) (hsep : isSpace sep = true) :
    ∀ ts : List (List Char),
      (∀ t ∈ ts, t ≠ [] ∧ ∀ c ∈ t, isSpace c = false) →
      tokenize (joinSep sep ts ++ ['\n']) = ts := by
  intro ts
  induction ts with
  | nil =>
    intro _
    show tokenize ['\n'] = []
    rw [tokenize_cons, if_pos (by decide), tokenize_nil]
  | cons t ts ih =>
    intro h
    have ht := h t (List.mem_cons_self _ _)
    cases ts with
    | nil =>
      show tokenize (t ++ ['\n']) = [t]
      rw [tokenize_token_append t ['\n'] ht.1 ht.2 (Or.inr ⟨'\n', [], rfl, by decide⟩)]
      rw [tokenize_cons, if_pos (by decide), tokenize_nil]
    | cons t2 ts2 =>
      have hjoin : joinSep sep (t :: t2 :: ts2) = t ++ sep :: joinSep sep (t2 :: ts2) := rfl
      rw [hjoin, List.append_assoc, List.cons_append]
      rw [tokenize_token_append t (sep :: (joinSep sep (t2 :: ts2) ++ ['\n'])) ht.1 ht.2
        (Or.inr ⟨sep, _, rfl, hsep⟩)]
      rw [tokenize_cons, if_pos hsep]
      rw [ih (fun u hu => h u (List.mem_cons_of_mem _ hu))]

/-- Tokenising the rendered layout of well-formed tokens recovers the
tokens. -/
theorem tokenize_renderToks (w : Nat) (ts : List (List Char))
    (h : ∀ t ∈ ts, t ≠ [] ∧ ∀ c ∈ t, isSpace c = false) :
    tokenize (renderToks w ts) = ts := by
  cases ts with
  | nil => simpa [renderToks] using tokenize_nil
  | cons t ts' =>
    show tokenize
      (if (joinSep ' ' (t :: ts')).length ≤ w
        then joinSep ' ' (t :: ts') ++ ['\n']
        else joinSep '\n' (t :: ts') ++ ['\n']) = t :: ts'
    by_cases hw : (joinSep ' ' (t :: ts')).length ≤ w
    · rw [if_pos hw]
      exact tokenize_joinSep ' ' (by decide) _ h
    · rw [if_neg hw]
      exact tokenize_joinSep '\n' (by decide) _ h

/-! ## Claim theorems: the daemon (src/blackd.py) -/

/-- C3: for all source `s` and fixed configuration `w`, rendering is
idempotent — `render (render s) = render s` — and hence the Stability
Oracle `assert_stable s (render s) w` never fails. -/
theorem render_idempotent (w : Nat) (s : List Char) :
    render w (render w s) = render w s ∧
      assert_stable s (render w s) w = true := by
  have key : tokenize (render w s) = tokenize s :=
    tokenize_renderToks w (tokenize s) (tokenize_wf s)
  have hidem : render w (render w s) = render w s := by
    show renderToks w (tokenize (render w s)) = render w s
    rw [key]
    rfl
  refine ⟨hidem, ?_⟩
  simp [assert_stable, hidem]

/-- C1: under the daemon wire protocol, a request whose body decodes and
formats to changed text is answered `OK\n` + the UTF-8 encoding of the
formatted text; a `NothingChanged` outcome is answered exactly
`OK NO CHANGE\n`; any other exception is answered `ERROR\n` + the UTF-8
encoding of the error message. -/
theorem new_req_wire_protocol (fmt : List Nat → Except Exc (List Nat))
    (de : List Nat → List Nat) (req s : List Nat)
    (hdec : utf8Decode req = some s) :
    (∀ out, fmt s = Except.ok out →
      (new_req fmt de req).writes = [okHdr ++ utf8Encode out]) ∧
    (fmt s = Except.error Exc.nothingChanged →
      (new_req fmt de req).writes = [okNoChangeMsg]) ∧
    (∀ m, fmt s = Except.error (Exc.exc m) →
      (new_req fmt de req).writes = [errHdr ++ utf8Encode m]) := by
  refine ⟨fun out hout => ?_, fun hnc => ?_, fun m hm => ?_⟩ <;>
    simp [new_req, responseFor, hdec, *]

/-- C1 witness: a concrete request body that decodes and formats to
changed output receives the `OK\n`-headed response. -/
theorem new_req_wire_protocol_witness :
    utf8Decode [97] = some [97] ∧
    (new_req (fun _ => Except.ok [98, 10]) (fun _ => []) [97]).writes
      = [okHdr ++ utf8Encode [98, 10]] := by
  refine ⟨by decide, ?_⟩
  exact (new_req_wire_protocol (fun _ => Except.ok [98, 10]) (fun _ => [])
    [97] [97] (by decide)).1 [98, 10] rfl

/-- C2: on every path — formatted, no change, or any exception — `new_req`
writes exactly one response and the `finally` block drains and closes the
connection. -/
theorem new_req_single_response (fmt : List Nat → Except Exc (List Nat))
    (de : List Nat → List Nat) (req : List Nat) :
    (new_req fmt de req).writes.length = 1 ∧
    (new_req fmt de req).drained = true ∧
    (new_req fmt de req).closed = true :=
  ⟨rfl, rfl, rfl⟩

/-- C8: a request body that is not valid UTF-8 makes the decode step
raise, the generic handler answers `ERROR\n` + the encoded message, and
the connection is still drained and closed. -/
theorem new_req_invalid_utf8 (fmt : List Nat → Except Exc (List Nat))
    (de : List Nat → List Nat) (req : List Nat)
    (hdec : utf8Decode req = none) :
    (new_req fmt de req).writes = [errHdr ++ utf8Encode (de req)] ∧
    (new_req fmt de req).drained = true ∧
    (new_req fmt de req).closed = true := by
  refine ⟨?_, rfl, rfl⟩
  simp [new_req, responseFor, hdec]

/-- C8 witness: the byte `0xFF` is not valid UTF-8 and receives the
`ERROR\n`-headed response on a closed connection. -/
theorem new_req_invalid_utf8_witness :
    utf8Decode [255] = none ∧
    (new_req (fun _ => Except.ok []) (fun _ => [104]) [255]).writes
      = [errHdr ++ utf8Encode [104]] := by
  refine ⟨by decide, ?_⟩
  exact (new_req_invalid_utf8 (fun _ => Except.ok []) (fun _ => [104]) [255]
    (by decide)).1

/-- C9: whenever binding the listening socket raises, `blackd.main`'s
`finally` block evaluates `server.close()` with `server` unbound, so the
invocation ends in an unbound-local `NameError` instead of a clean
shutdown. -/
theorem blackdMain_unbound_local (e : PyErr) (interrupt : PyErr) :
    blackdMain (Except.error e) interrupt = MainOutcome.raised PyErr.nameError :=
  rfl

/-- C10: the daemon's handling is deterministic in the request — each
connection's response is `new_req` of its own body alone, and equal
request bodies receive equal responses. -/
theorem new_req_deterministic (fmt : List Nat → Except Exc (List Nat))
    (de : List Nat → List Nat) (reqs : List (List Nat)) (i : Nat) :
    (handleConnections fmt de reqs)[i]? = (reqs[i]?).map (new_req fmt de) ∧
    ∀ r1 r2 : List Nat, r1 = r2 → new_req fmt de r1 = new_req fmt de r2 := by
  constructor
  · simp [handleConnections]
  · intro r1 r2 h
    rw [h]

/-- C10 witness: on a concrete connection list the first response is
`new_req` of the first body, and a repeated body receives the same
response. -/
theorem new_req_deterministic_witness :
    (handleConnections (fun s => Except.ok s) (fun _ => []) [[97]])[0]?
      = some (new_req (fun s => Except.ok s) (fun _ => []) [97]) ∧
    new_req (fun s => Except.ok s) (fun _ => []) [104, 105]
      = new_req (fun s => Except.ok s) (fun _ => []) [104, 105] := by
  constructor
  · exact ((new_req_deterministic (fun s => Except.ok s) (fun _ => [])
      [[97]] 0).1).trans rfl
  · exact (new_req_deterministic (fun s => Except.ok s) (fun _ => []) [] 0).2
      [104, 105] [104, 105] rfl

/-- C7: contrary to the claim, src/blackd.py defines no `_stop_signal`
attribute (the module binds only its imports and `main`/`new_req`), and
its `main` never reaches a clean exit: every invocation ends in a raised
exception, because `loop.run_forever()` has no stop condition. -/
theorem blackd_no_stop_signal :
    blackdModuleAttrs.contains "_stop_signal" = false ∧
    ∀ (startResult : Except PyErr Unit) (interrupt : PyErr),
      ∃ e, blackdMain startResult interrupt = MainOutcome.raised e := by
  refine ⟨by decide, fun startResult interrupt => ?_⟩
  cases startResult with
  | error e => exact ⟨PyErr.nameError, rfl⟩
  | ok u => exact ⟨interrupt, rfl⟩

/-! ## Lemmas about the cache model -/

/-- Lookup distributes over appended record stores, preferring the left
one. -/
theorem cacheLookup_append (m1 m2 : CacheMap) (p : String) :
    cacheLookup (m1 ++ m2) p =
      match cacheLookup m1 p with
      | some v => some v
      | none => cacheLookup m2 p := by
  induction m1 with
  | nil => rfl
  | cons e rest ih =>
    obtain ⟨q, info⟩ := e
    by_cases h : q = p
    · simp [cacheLookup, h]
    · simp [cacheLookup, h, ih]

/-- A snapshot list built over a path list has a record exactly for the
listed paths. -/
theorem cacheLookup_map_snapshots (l : List String) (fs : String → FileInfo)
    (p : String) :
    (cacheLookup (l.map (fun q => (q, fs q))) p).isSome = true ↔ p ∈ l := by
  induction l with
  | nil => simp [cacheLookup]
  | cons a l ih =>
    by_cases h : a = p
    · simp [cacheLookup, h]
    · rw [show cacheLookup ((a :: l).map (fun q => (q, fs q))) p
          = cacheLookup (l.map (fun q => (q, fs q))) p from by
        simp [cacheLookup, h]]
      rw [ih]
      constructor
      · exact fun hp => List.mem_cons_of_mem a hp
      · intro hp
        rcases List.mem_cons.mp hp with rfl | hp
        · exact absurd rfl h
        · exact hp

/-- The record store just written is the merge of the new entries over the
old store. -/
theorem read_cache_write_cache_self (store : CacheStore) (fp : Fingerprint)
    (entries : CacheMap) :
    read_cache (write_cache store fp entries) fp
      = entries ++ read_cache store fp := by
  simp [write_cache, read_cache]

/-- A job contributes a cache path exactly when it is a file whose format
attempt succeeded. -/
theorem jobSuccessPath_eq_some (j : Src × Outcome) (p : String) :
    jobSuccessPath j = some p ↔
      j = (Src.file p, Outcome.changed) ∨ j = (Src.file p, Outcome.unchanged) := by
  obtain ⟨s, o⟩ := j
  cases s <;> cases o <;> simp [jobSuccessPath]

/-! ## Claim theorems: cache, batch driver, report -/

/-- C5: `filter_cached` classifies a candidate as already done exactly
when it has a record under this fingerprint whose snapshot equals its
current (mtime, size); every other candidate lands in the to-process
list; and a store written under one fingerprint is invisible under any
other fingerprint. -/
theorem filter_cached_correct (cache : CacheMap) (fs : String → FileInfo)
    (sources : List String) (f : String) :
    (f ∈ (filter_cached cache fs sources).2 ↔
      f ∈ sources ∧ cacheLookup cache f = some (fs f)) ∧
    (f ∈ (filter_cached cache fs sources).1 ↔
      f ∈ sources ∧ ¬ (cacheLookup cache f = some (fs f))) ∧
    (∀ (store : CacheStore) (fp fq : Fingerprint) (entries : CacheMap),
      fp ≠ fq →
      read_cache (write_cache store fp entries) fq = read_cache store fq) := by
  refine ⟨?_, ?_, ?_⟩
  · simp [filter_cached, List.mem_filter]
  · simp [filter_cached, List.mem_filter]
  · intro store fp fq entries hne
    simp [write_cache, read_cache, hne]

/-- C5 witness: a matching record is classified as done, and a write
under line length 88 is invisible under line length 79. -/
theorem filter_cached_correct_witness :
    "a" ∈ (filter_cached [("a", (1, 2))] (fun _ => (1, 2)) ["a", "b"]).2 ∧
    read_cache (write_cache [] ⟨88, 0⟩ [("f", (3, 4))]) ⟨79, 0⟩
      = read_cache ([] : CacheStore) ⟨79, 0⟩ := by
  constructor
  · exact (filter_cached_correct [("a", (1, 2))] (fun _ => (1, 2))
      ["a", "b"] "a").1.mpr ⟨by decide, by decide⟩
  · exact (filter_cached_correct [] (fun _ => (0, 0)) [] "a").2.2
      [] ⟨88, 0⟩ ⟨79, 0⟩ [("f", (3, 4))] (by decide)

/-- C4: a diff-preview run leaves the cache untouched; any record present
after a batch run was either present before or stems from a file job
whose format attempt succeeded (so neither a failed file nor
standard-input can create one); in particular a failed file absent from
the cache before the run is still absent after it. -/
theorem runBatchCache_invariant (store : CacheStore) (fp : Fingerprint)
    (fs : String → FileInfo) (wb : WriteBack) (jobs : List (Src × Outcome))
    (p : String) :
    (wb = WriteBack.diff → runBatchCache store fp fs wb jobs = store) ∧
    ((cacheLookup (read_cache (runBatchCache store fp fs wb jobs) fp) p).isSome
        = true →
      (cacheLookup (read_cache store fp) p).isSome = true ∨
        (Src.file p, Outcome.changed) ∈ jobs ∨
        (Src.file p, Outcome.unchanged) ∈ jobs) ∧
    ((∀ o : Outcome, (Src.file p, o) ∈ jobs → o = Outcome.failed) →
      cacheLookup (read_cache store fp) p = none →
      cacheLookup (read_cache (runBatchCache store fp fs wb jobs) fp) p
        = none) := by
  have hmain : (cacheLookup (read_cache (runBatchCache store fp fs wb jobs) fp)
      p).isSome = true →
      (cacheLookup (read_cache store fp) p).isSome = true ∨
        (Src.file p, Outcome.changed) ∈ jobs ∨
        (Src.file p, Outcome.unchanged) ∈ jobs := by
    intro hsome
    by_cases hwb : wb = WriteBack.diff
    · rw [runBatchCache, if_pos hwb] at hsome
      exact Or.inl hsome
    · rw [runBatchCache, if_neg hwb, read_cache_write_cache_self,
        cacheLookup_append] at hsome
      rcases hnew : cacheLookup
          ((jobs.filterMap jobSuccessPath).map (fun q => (q, fs q))) p with
        _ | v
      · rw [hnew] at hsome
        exact Or.inl hsome
      · have hp : p ∈ jobs.filterMap jobSuccessPath :=
          (cacheLookup_map_snapshots (jobs.filterMap jobSuccessPath) fs p).mp
            (by rw [hnew]; rfl)
        obtain ⟨j, hj, hjp⟩ := List.mem_filterMap.mp hp
        rcases (jobSuccessPath_eq_some j p).mp hjp with rfl | rfl
        · exact Or.inr (Or.inl hj)
        · exact Or.inr (Or.inr hj)
  refine ⟨fun hwb => by rw [runBatchCache, if_pos hwb], hmain, ?_⟩
  intro hall hnone
  rcases hafter : cacheLookup
      (read_cache (runBatchCache store fp fs wb jobs) fp) p with _ | v
  · rfl
  · exfalso
    have := hmain (by rw [hafter]; rfl)
    rcases this with hbefore | hchanged | hunchanged
    · rw [hnone] at hbefore
      exact Bool.noConfusion hbefore
    · exact Outcome.noConfusion (hall Outcome.changed hchanged)
    · exact Outcome.noConfusion (hall Outcome.unchanged hunchanged)

/-- C4 witness: in a run over a failing file and a standard-input job,
the failing file gains no cache record, and a diff run writes nothing. -/
theorem runBatchCache_invariant_witness :
    cacheLookup
      (read_cache
        (runBatchCache [] ⟨88, 0⟩ (fun _ => (1, 2)) WriteBack.yes
          [(Src.file "failing", Outcome.failed), (Src.stdin, Outcome.changed)])
        ⟨88, 0⟩) "failing" = none ∧
    runBatchCache [] ⟨88, 0⟩ (fun _ => (1, 2)) WriteBack.diff
      [(Src.file "failing", Outcome.failed)] = [] := by
  constructor
  · refine (runBatchCache_invariant [] ⟨88, 0⟩ (fun _ => (1, 2)) WriteBack.yes
      [(Src.file "failing", Outcome.failed), (Src.stdin, Outcome.changed)]
      "failing").2.2 ?_ rfl
    intro o ho
    cases o with
    | failed => rfl
    | changed => exact absurd ho (by decide)
    | unchanged => exact absurd ho (by decide)
  · exact (runBatchCache_invariant [] ⟨88, 0⟩ (fun _ => (1, 2)) WriteBack.diff
      [(Src.file "failing", Outcome.failed)] "failing").1 rfl

/-- C6: the batch exit status is 0 when no file failed and no change is
pending under check mode, 1 when check mode is set and at least one file
would change (and none failed), 123 when at least one file failed, and 2
when an include/exclude pattern was invalid. -/
theorem exit_code_cases (r : Report) :
    (r.failure_count = 0 → (r.check = false ∨ r.change_count = 0) →
      exit_code (Invocation.completed r) = 0) ∧
    (r.failure_count = 0 → r.check = true → 0 < r.change_count →
      exit_code (Invocation.completed r) = 1) ∧
    (0 < r.failure_count → exit_code (Invocation.completed r) = 123) ∧
    exit_code Invocation.invalidPatterns = 2 := by
  refine ⟨?_, ?_, ?_, rfl⟩
  · intro h0 hc
    rcases hc with hc | hc <;>
      simp [exit_code, Report.return_code, h0, hc]
  · intro h0 hck hch
    have hd : decide (r.change_count > 0) = true := decide_eq_true hch
    simp [exit_code, Report.return_code, h0, hck, hd]
  · intro hf
    simp [exit_code, Report.return_code, hf]

/-- C6 witness: a report with one pending change under check mode and no
failures exits 1; one recorded failure exits 123. -/
theorem exit_code_cases_witness :
    exit_code (Invocation.completed (Report.mk true 1 2 0)) = 1 ∧
    exit_code (Invocation.completed (Report.mk false 0 0 1)) = 123 := by
  constructor
  · exact (exit_code_cases (Report.mk true 1 2 0)).2.1 rfl rfl (by decide)
  · exact (exit_code_cases (Report.mk false 0 0 1)).2.2.1 (by decide)
